import Mathlib

/-!
Shallow embedding of the thermostat controller (source: a single Node.js file;
the final iteration of the file is the authority). Pure fragments of the
JavaScript are translated into executable Lean definitions; callback-driven
stateful fragments become explicit state-passing functions that return the new
state together with the list of GPIO pin writes they perform. JavaScript
numbers are modelled as rationals (all values involved are exact decimals),
object-key maps as association lists in iteration order, and regular
expressions over payload text as direct scanners over the character list.
-/

namespace Thermostack

/-! ## Sensor reading (`parseTempSensorData`, `getTemperature`) -/

/-- Typed sensor read failures: CRC mismatch, missing `t=` marker, the
zero-reading heuristic, and a file-system read error surfaced through the
`getTemperature` callback. -/
inductive SensorError
  | crcFailure
  | noReading
  | zeroReading
  | ioFailure
  deriving DecidableEq, Repr

/-- What the `getTemperature` callback receives: a numeric temperature in
degrees, or an error value (`isNumber` distinguishes the two in the source). -/
inductive SensorResult
  | temp (q : ℚ)
  | err (e : SensorError)
  deriving DecidableEq, Repr

/-- Characters matched by the regex metacharacter `.` in JavaScript (any
character except a line terminator). -/
def regexDotMatches (c : Char) : Bool :=
  c ≠ '\n' && c ≠ '\r' && c ≠ Char.ofNat 0x2028 && c ≠ Char.ofNat 0x2029

/-- Does the character list start with a match of `/crc=.. YES/`? -/
def crcMatchAt : List Char → Bool
  | 'c' :: 'r' :: 'c' :: '=' :: a :: b :: ' ' :: 'Y' :: 'E' :: 'S' :: _ =>
      regexDotMatches a && regexDotMatches b
  | _ => false

/-- `/crc=.. YES/.test(data)`: does any position of the payload match? -/
def crcTest : List Char → Bool
  | [] => false
  | c :: rest => crcMatchAt (c :: rest) || crcTest rest

/-- `data.match(/t=(\d+)/)`: scan left to right for the first position where
`t=` is followed by at least one digit, and return the maximal digit run
captured there (the greedy `\d+` group). -/
def findTempMatch : List Char → Option (List Char)
  | [] => none
  | c :: rest =>
    match c, rest with
    | 't', '=' :: d :: _ =>
        if d.isDigit then some ((rest.drop 1).takeWhile Char.isDigit)
        else findTempMatch rest
    | _, _ => findTempMatch rest

/-- Numeric value of a captured decimal digit run. -/
def digitsToNat (ds : List Char) : ℕ :=
  ds.foldl (fun a c => 10 * a + (c.toNat - '0'.toNat)) 0

/-- `parseTempSensorData(data)`: CRC check, then `t=(\d+)` extraction; a
missing marker is an error; a captured group string-equal to `"0"` is the
zero-reading error; otherwise the captured number divided by 1000. -/
def parseTempSensorData (data : String) : SensorResult :=
  if crcTest data.data = false then .err .crcFailure
  else
    match findTempMatch data.data with
    | none => .err .noReading
    | some ds =>
        if ds = ['0'] then .err .zeroReading
        else .temp ((digitsToNat ds : ℚ) / 1000)

/-! ## Furnace state machine (`performFurnaceAction`, `globals.furnaceState`) -/

/-- `globals.furnaceState`: three booleans. -/
structure FurnaceState where
  fan : Bool
  heat : Bool
  cool : Bool
  deriving DecidableEq, Repr

/-- The three members of the `furnaceActions` object. -/
inductive FurnaceAction
  | heat
  | cool
  | off
  deriving DecidableEq, Repr

/-- The two GPIO pins the controller drives. -/
inductive Pin
  | mainPower
  | heatCoolSelector
  deriving DecidableEq, Repr

/-- `performFurnaceAction(action)` for a recognised action: the replacement
furnace state together with the ordered pin writes `(pin, level)` it issues. -/
def performFurnaceAction : FurnaceAction → FurnaceState × List (Pin × ℕ)
  | .heat => (⟨true, true, false⟩, [(Pin.mainPower, 0), (Pin.heatCoolSelector, 1)])
  | .cool => (⟨true, false, true⟩, [(Pin.mainPower, 0), (Pin.heatCoolSelector, 0)])
  | .off => (⟨false, false, false⟩, [(Pin.mainPower, 1)])

/-- The state transition of `performFurnaceAction`: the prior state is passed
in only to exhibit that the assignment is a whole-record replacement that
never reads it. -/
def applyAction (a : FurnaceAction) (_prior : FurnaceState) : FurnaceState :=
  (performFurnaceAction a).1

/-- The initial value of `globals.furnaceState` at module load. -/
def initialFurnaceState : FurnaceState := ⟨false, false, false⟩

/-- The state after `main()`'s first statement, `performFurnaceAction(off)`. -/
def startupFurnaceState : FurnaceState := applyAction .off initialFurnaceState

/-- Safety invariant claimed of `FurnaceState`. -/
def FurnaceInvariant (s : FurnaceState) : Prop :=
  (s.heat && s.cool) = false ∧ s.fan = (s.heat || s.cool)

instance (s : FurnaceState) : Decidable (FurnaceInvariant s) := by
  unfold FurnaceInvariant; infer_instance

/-! ## Schedule entries (`TempTime`, `compareTempTimes`, `ObjToSortedTempTimeArray`) -/

/-- A validated schedule entry: hour, minutes, and the comfort range. -/
structure TempTime where
  hour : ℕ
  minutes : ℕ
  minTemp : ℚ
  maxTemp : ℚ
  deriving DecidableEq, Repr

/-- A JSON array element as the validator sees it: a (non-NaN) number or
anything else. `NaN` also fails the source's `isNumber` test, so it lands in
`notNum`. -/
inductive JsonElem
  | num (q : ℚ)
  | notNum
  deriving DecidableEq, Repr

/-- A JSON value submitted as a temperature pair: an array of elements, or a
non-array value. -/
inductive JsonVal
  | arr (elems : List JsonElem)
  | notArr
  deriving DecidableEq, Repr

/-- The distinct `throw` sites of the `TempTime` constructor, in source
order. -/
inductive ValidationError
  | malformedTime
  | invalidHour
  | invalidMinutes
  | notAnArray
  | wrongLength
  | notNumbers
  | minNotBelowMax
  deriving DecidableEq, Repr

/-- The anchored regex `^(\d{1,2}):(\d{2})$`: one or two digits, a colon,
exactly two digits; returns the two captured digit runs. -/
def matchTimeStr : List Char → Option (List Char × List Char)
  | [a, ':', c, d] =>
      if a.isDigit && c.isDigit && d.isDigit then some ([a], [c, d]) else none
  | [a, b, ':', c, d] =>
      if a.isDigit && b.isDigit && c.isDigit && d.isDigit then
        some ([a, b], [c, d])
      else none
  | _ => none

/-- `new TempTime(timeStr, tempArray)`: regex match, hour and minute range
checks (JavaScript coerces the captured strings to numbers for `<`/`>`),
then the array-shape, numeric and `min < max` checks on the pair. On success
the numeric values of the captures become `hour`/`minutes`
(`parseFloat` of a digit run). -/
def tempTimeOf (timeStr : String) (tempArray : JsonVal) :
    Except ValidationError TempTime :=
  match matchTimeStr timeStr.data with
  | none => .error .malformedTime
  | some (hd, md) =>
    let h := digitsToNat hd
    let m := digitsToNat md
    if 23 < h then .error .invalidHour
    else if 59 < m then .error .invalidMinutes
    else
      match tempArray with
      | .notArr => .error .notAnArray
      | .arr es =>
        match es with
        | [e1, e2] =>
          match e1, e2 with
          | .num lo, .num hi =>
              if hi ≤ lo then .error .minNotBelowMax
              else .ok ⟨h, m, lo, hi⟩
          | _, _ => .error .notNumbers
        | _ => .error .wrongLength

/-- `compareTempTimes(t1, t2)`: three-way comparison on `(hour, minutes)`. -/
def compareTempTimes (t1 t2 : TempTime) : ℤ :=
  if t1.hour > t2.hour then 1
  else if t1.hour < t2.hour then -1
  else if t1.minutes > t2.minutes then 1
  else if t1.minutes < t2.minutes then -1
  else 0

/-- The total preorder induced by the comparator: `t1` sorts no later than
`t2`. -/
def ttLE (t1 t2 : TempTime) : Prop := compareTempTimes t1 t2 ≤ 0

instance : DecidableRel ttLE := fun _ _ => Int.decLe _ _

/-- The entry loop of `ObjToSortedTempTimeArray`: build a `TempTime` from
every `[timeStr, tempArray]` pair of the object in iteration order; the first
`throw` aborts the loop with that error. -/
def tempTimesOf : List (String × JsonVal) → Except ValidationError (List TempTime)
  | [] => .ok []
  | e :: rest =>
    match tempTimeOf e.1 e.2 with
    | .error err => .error err
    | .ok t =>
      match tempTimesOf rest with
      | .error err => .error err
      | .ok ts => .ok (t :: ts)

/-- `ObjToSortedTempTimeArray(obj)`: validate every entry in iteration order,
then `array.sort(compareTempTimes)`. `Array.prototype.sort` with this
consistent comparator is a stable sort, modelled by insertion sort on
`ttLE`. -/
def objToSortedTempTimeArray (obj : List (String × JsonVal)) :
    Except ValidationError (List TempTime) :=
  match tempTimesOf obj with
  | .error err => .error err
  | .ok arr => .ok (arr.insertionSort ttLE)

/-! ## Furnace update (`updateFurnace`) -/

/-- The guard of the schedule scan in `updateFurnace`:
`tempTime.hour < h || (tempTime.hour == h && tempTime.minutes < m)` where
`h`/`m` are `currentTime.getHours()`/`getMinutes()`. -/
def tempTimeIsBefore (t : TempTime) (h m : ℕ) : Bool :=
  decide (t.hour < h) || (t.hour == h && decide (t.minutes < m))

/-- The schedule lookup inside `updateFurnace`: `none` when the schedule is
empty (the early `length == 0` return); otherwise start from the last entry
of the sorted array and let every entry strictly before the current
time-of-day overwrite the pick, in order. -/
def effectiveRange (sched : List TempTime) (h m : ℕ) : Option TempTime :=
  match sched.getLast? with
  | none => none
  | some last =>
      some (sched.foldl (fun acc t => if tempTimeIsBefore t h m then t else acc) last)

/-- The decision at the heart of `updateFurnace`'s temperature callback:
below the range heats, above it cools, inside it turns off. -/
def decideAction (temp : ℚ) (r : TempTime) : FurnaceAction :=
  if temp < r.minTemp then .heat
  else if temp > r.maxTemp then .cool
  else .off

/-- One furnace-update tick: skip entirely on an empty schedule; otherwise
look up the effective range, and act only when the sensor callback delivered
a number (`isNumber`), leaving the state untouched and writing no pin on any
sensor error. Returns the furnace state after the tick and the pin writes
issued during it. -/
def updateFurnaceTick (sched : List TempTime) (h m : ℕ) (reading : SensorResult)
    (st : FurnaceState) : FurnaceState × List (Pin × ℕ) :=
  match effectiveRange sched h m with
  | none => (st, [])
  | some r =>
    match reading with
    | .err _ => (st, [])
    | .temp t => performFurnaceAction (decideAction t r)

/-! ## The `POST /state` handler -/

/-- Property names every plain object literal inherits from
`Object.prototype`, so that `obj[name]` is not `undefined` even though the
name is not an own key of the literal. -/
def objectPrototypeKeys : List String :=
  ["constructor", "hasOwnProperty", "isPrototypeOf", "propertyIsEnumerable",
   "toLocaleString", "toString", "valueOf", "__proto__", "__defineGetter__",
   "__defineSetter__", "__lookupGetter__", "__lookupSetter__"]

/-- Is `s` an own key of the `furnaceActions` object literal? -/
def isFurnaceActionKey (s : String) : Bool :=
  s == "heat" || s == "cool" || s == "off"

/-- Is `furnaceActions[s]` different from `undefined`? True for the three own
keys and for every property inherited from `Object.prototype`. -/
def furnaceActionsDefined (s : String) : Bool :=
  isFurnaceActionKey s || objectPrototypeKeys.contains s

/-- `performFurnaceAction(action)` as called with an arbitrary string: the
`switch` matches the three action strings and otherwise falls through doing
nothing (no state assignment, no pin write). -/
def performFurnaceActionStr (s : String) (st : FurnaceState) :
    FurnaceState × List (Pin × ℕ) :=
  if s = "heat" then performFurnaceAction .heat
  else if s = "cool" then performFurnaceAction .cool
  else if s = "off" then performFurnaceAction .off
  else (st, [])

/-- Responses of the `POST /state` handler. -/
inductive StateResponse
  | invalidAction
  | furnace (s : FurnaceState)
  deriving DecidableEq, Repr

/-- The `POST /state` handler: reject when `req.body.action` is absent or
`furnaceActions[action]` is `undefined`; otherwise run
`performFurnaceAction(action)` and send back `globals.furnaceState`. Returns
the response, the furnace state after the request, and the pin writes. -/
def postState (action : Option String) (st : FurnaceState) :
    StateResponse × FurnaceState × List (Pin × ℕ) :=
  match action with
  | none => (.invalidAction, st, [])
  | some a =>
    if furnaceActionsDefined a then
      let r := performFurnaceActionStr a st
      (.furnace r.1, r.1, r.2)
    else (.invalidAction, st, [])

/-! ## The `POST /schedule` handler -/

/-- The mutable state the schedule handler touches: the live in-memory
`globals.tempSchedule` and the contents of the persisted schedule file
(the raw submitted mapping is what gets written). -/
structure ScheduleState where
  tempSchedule : List TempTime
  scheduleFile : List (String × JsonVal)
  deriving DecidableEq, Repr

/-- Responses of the `POST /schedule` handler. -/
inductive SubmitResponse
  | success
  | validationError (e : ValidationError)
  deriving DecidableEq, Repr

/-- Is the response a validation-error payload (as opposed to success)? -/
def SubmitResponse.isValidationError : SubmitResponse → Bool
  | .success => false
  | .validationError _ => true

/-- Does validation of a single submitted `[timeStr, tempArray]` entry
fail? -/
def tempTimeFails (p : String × JsonVal) : Bool :=
  match tempTimeOf p.1 p.2 with
  | .error _ => true
  | .ok _ => false

/-- The `POST /schedule` handler: `ObjToSortedTempTimeArray` on the body; a
thrown validation error is sent back with nothing written and nothing
replaced; on success the raw body is persisted and the sorted array replaces
the live schedule. -/
def postSchedule (body : List (String × JsonVal)) (st : ScheduleState) :
    SubmitResponse × ScheduleState :=
  match objToSortedTempTimeArray body with
  | .error e => (.validationError e, st)
  | .ok arr => (.success, ⟨arr, body⟩)

/-! ## Temperature log (`logTemperature`) -/

/-- `maxTempLogAgeMs`: seven days in milliseconds. -/
def maxTempLogAgeMs : ℤ := 1000 * 60 * 60 * 24 * 7

/-- The age-based eviction loop of `logTemperature`: delete every entry whose
timestamp key is below `now - maxAge`, keep the rest. Keys are stored as
decimal strings of the millisecond timestamps; JavaScript's `<` against the
numeric bound coerces them back to exactly these numbers, so the comparison
is numeric and is modelled on the integer keys directly. -/
def trimLog (now maxAge : ℤ) (log : List (ℤ × SensorResult)) :
    List (ℤ × SensorResult) :=
  log.filter fun e => !decide (e.1 < now - maxAge)

/-- `tempLog[currentTime] = temperature`: overwrite the entry at an existing
key, otherwise add one. -/
def insertLogEntry (log : List (ℤ × SensorResult)) (now : ℤ)
    (reading : SensorResult) : List (ℤ × SensorResult) :=
  if log.any (fun e => e.1 == now) then
    log.map fun e => if e.1 == now then (now, reading) else e
  else log ++ [(now, reading)]

/-- One logging tick (the callback body of `logTemperature`): record the
reading at the current time, then evict everything older than
`maxTempLogAgeMs`; the result is what gets persisted. -/
def logTemperatureTick (reading : SensorResult) (now : ℤ)
    (log : List (ℤ × SensorResult)) : List (ℤ × SensorResult) :=
  trimLog now maxTempLogAgeMs (insertLogEntry log now reading)

/-! ## Helper lemmas -/

/-- The overwrite-on-qualify scan of `updateFurnace` computes the last
qualifying element, with the start value as fallback. -/
lemma foldl_overwrite {α : Type} (p : α → Bool) (l : List α) (init : α) :
    l.foldl (fun acc t => if p t then t else acc) init =
      (l.filter p).getLastD init := by
  induction l generalizing init with
  | nil => rfl
  | cons a l ih =>
    rw [List.foldl_cons, ih, List.filter_cons]
    by_cases h : p a = true
    · rw [if_pos h, if_pos h, List.getLastD_cons]
    · rw [if_neg h, if_neg h]

/-- The comparator's nonpositive half is the lexicographic order on
`(hour, minutes)`. -/
lemma ttLE_iff (t1 t2 : TempTime) :
    ttLE t1 t2 ↔
      (t1.hour < t2.hour ∨ (t1.hour = t2.hour ∧ t1.minutes ≤ t2.minutes)) := by
  unfold ttLE compareTempTimes
  split_ifs <;> omega

instance : IsTotal TempTime ttLE :=
  ⟨fun a b => by rw [ttLE_iff, ttLE_iff]; omega⟩

instance : IsTrans TempTime ttLE :=
  ⟨fun a b c => by rw [ttLE_iff, ttLE_iff, ttLE_iff]; omega⟩

/-- The assignment `tempLog[currentTime] = temperature` makes the entry
present. -/
lemma insertLogEntry_mem (log : List (ℤ × SensorResult)) (now : ℤ)
    (reading : SensorResult) : (now, reading) ∈ insertLogEntry log now reading := by
  unfold insertLogEntry
  split
  · rename_i h
    obtain ⟨e, he, heq⟩ := List.any_eq_true.mp h
    refine List.mem_map.mpr ⟨e, he, ?_⟩
    simp [heq]
  · exact List.mem_append_right _ (List.mem_singleton.mpr rfl)

/-- A failing entry anywhere in the submitted object aborts the whole entry
loop with an error. -/
lemma tempTimesOf_error_of_mem {body : List (String × JsonVal)}
    {p : String × JsonVal} (hp : p ∈ body) (he : tempTimeFails p = true) :
    ∃ e, tempTimesOf body = .error e := by
  induction body with
  | nil => cases hp
  | cons a rest ih =>
    rcases List.mem_cons.mp hp with h | h
    · subst h
      unfold tempTimeFails at he
      cases hv : tempTimeOf p.1 p.2 with
      | error e => exact ⟨e, by rw [tempTimesOf, hv]⟩
      | ok t => rw [hv] at he; cases he
    · cases ha : tempTimeOf a.1 a.2 with
      | error e => exact ⟨e, by rw [tempTimesOf, ha]⟩
      | ok t =>
        obtain ⟨e, hrest⟩ := ih h
        exact ⟨e, by rw [tempTimesOf, ha, hrest]⟩

/-! ## Claims -/

/-- C1. For every valid numeric sensor reading and every effective comfort
range (`minTemp < maxTemp`), the furnace-update decision applies HEAT exactly
when `reading < minTemp`, COOL exactly when `reading > maxTemp`, and OFF
otherwise; in particular 17 against `[19, 21]` heats, 22 cools, and 20 turns
off. -/
theorem decideAction_spec :
    (∀ (temp : ℚ) (r : TempTime), r.minTemp < r.maxTemp →
      (decideAction temp r = .heat ↔ temp < r.minTemp) ∧
      (decideAction temp r = .cool ↔ temp > r.maxTemp) ∧
      (decideAction temp r = .off ↔ (r.minTemp ≤ temp ∧ temp ≤ r.maxTemp))) ∧
    decideAction 17 ⟨0, 0, 19, 21⟩ = .heat ∧
    decideAction 22 ⟨0, 0, 19, 21⟩ = .cool ∧
    decideAction 20 ⟨0, 0, 19, 21⟩ = .off := by
  refine ⟨fun temp r hr => ?_, by decide, by decide, by decide⟩
  unfold decideAction
  split_ifs with h1 h2
  · refine ⟨⟨fun _ => h1, fun _ => rfl⟩, ⟨fun hc => ?_, fun hc => ?_⟩,
      ⟨fun hc => ?_, fun hc => ?_⟩⟩
    · exact hc.elim
    · linarith
    · exact hc.elim
    · rcases hc with ⟨hA, hB⟩; linarith
  · refine ⟨⟨fun hc => ?_, fun hc => ?_⟩, ⟨fun _ => h2, fun _ => rfl⟩,
      ⟨fun hc => ?_, fun hc => ?_⟩⟩
    · exact hc.elim
    · exact absurd hc h1
    · exact hc.elim
    · exact absurd h2 (not_lt.mpr hc.2)
  · refine ⟨⟨fun hc => ?_, fun hc => ?_⟩, ⟨fun hc => ?_, fun hc => ?_⟩,
      ⟨fun _ => ⟨not_lt.mp h1, not_lt.mp h2⟩, fun _ => rfl⟩⟩
    · exact hc.elim
    · exact absurd hc h1
    · exact hc.elim
    · exact absurd hc h2

/-- Closed witness for C1 at a concrete reading and range. -/
theorem decideAction_spec_witness :
    (decideAction 17 ⟨0, 0, 19, 21⟩ = .heat ↔ (17 : ℚ) < 19) ∧
    (decideAction 17 ⟨0, 0, 19, 21⟩ = .cool ↔ (17 : ℚ) > 21) ∧
    (decideAction 17 ⟨0, 0, 19, 21⟩ = .off ↔ ((19 : ℚ) ≤ 17 ∧ (17 : ℚ) ≤ 21)) :=
  decideAction_spec.1 17 ⟨0, 0, 19, 21⟩ (by norm_num)

/-- C3. The furnace state invariant (`heat` and `cool` never both set, and
`fan = heat || cool`) holds after process startup and after every
transition, including the sequence HEAT, COOL, OFF, HEAT; every transition
is a full-state replacement that does not depend on the prior record. -/
theorem furnace_invariant_spec :
    FurnaceInvariant startupFurnaceState ∧
    (∀ (a : FurnaceAction) (st : FurnaceState), FurnaceInvariant (applyAction a st)) ∧
    (∀ (a : FurnaceAction) (st st' : FurnaceState), applyAction a st = applyAction a st') ∧
    (∀ st : FurnaceState,
      FurnaceInvariant (applyAction .heat st) ∧
      FurnaceInvariant (applyAction .cool (applyAction .heat st)) ∧
      FurnaceInvariant (applyAction .off (applyAction .cool (applyAction .heat st))) ∧
      FurnaceInvariant
        (applyAction .heat (applyAction .off (applyAction .cool (applyAction .heat st))))) := by
  refine ⟨by decide, fun a st => ?_, fun a st st' => rfl, fun st => ?_⟩
  · cases a <;> simp [applyAction, performFurnaceAction, FurnaceInvariant]
  · refine ⟨?_, ?_, ?_, ?_⟩ <;>
      simp [applyAction, performFurnaceAction, FurnaceInvariant]

/-- C4. A furnace-update tick whose sensor read yields any error (CRC
failure, missing reading, zero reading, or I/O failure) leaves the furnace
state exactly as before and writes no pin. -/
theorem sensorError_failStatic :
    ∀ (sched : List TempTime) (h m : ℕ) (e : SensorError) (st : FurnaceState),
      updateFurnaceTick sched h m (.err e) st = (st, []) := by
  intro sched h m e st
  unfold updateFurnaceTick
  cases effectiveRange sched h m <;> rfl

/-- C2. The furnace update selects the last schedule entry strictly before
the current time-of-day, falling back to the last entry of the sequence when
none qualifies; the lookup is `none` exactly for the empty schedule, and the
empty-schedule tick applies no furnace action and writes no pin. For the
schedule `8:00 to [19, 21], 22:00 to [15, 18]`: at 07:00 the 22:00 range, at
09:00 `[19, 21]`, at 23:00 `[15, 18]`. -/
theorem effectiveRange_spec :
    (∀ (sched : List TempTime) (h m : ℕ),
      effectiveRange sched h m =
        (sched.getLast?).map fun last =>
          (sched.filter fun t => tempTimeIsBefore t h m).getLastD last) ∧
    (∀ (sched : List TempTime) (h m : ℕ),
      effectiveRange sched h m = none ↔ sched = []) ∧
    (∀ (h m : ℕ) (reading : SensorResult) (st : FurnaceState),
      updateFurnaceTick [] h m reading st = (st, [])) ∧
    objToSortedTempTimeArray
        [("8:00", .arr [.num 19, .num 21]), ("22:00", .arr [.num 15, .num 18])] =
      .ok [⟨8, 0, 19, 21⟩, ⟨22, 0, 15, 18⟩] ∧
    effectiveRange [⟨8, 0, 19, 21⟩, ⟨22, 0, 15, 18⟩] 7 0 = some ⟨22, 0, 15, 18⟩ ∧
    effectiveRange [⟨8, 0, 19, 21⟩, ⟨22, 0, 15, 18⟩] 9 0 = some ⟨8, 0, 19, 21⟩ ∧
    effectiveRange [⟨8, 0, 19, 21⟩, ⟨22, 0, 15, 18⟩] 23 0 = some ⟨22, 0, 15, 18⟩ := by
  refine ⟨fun sched h m => ?_, fun sched h m => ?_, fun h m reading st => rfl,
    rfl, rfl, rfl, rfl⟩
  · cases hl : sched.getLast? with
    | none => simp [effectiveRange, hl]
    | some last => simp [effectiveRange, hl, foldl_overwrite]
  · cases hl : sched.getLast? with
    | none => simp [effectiveRange, hl, List.getLast?_eq_none_iff.mp hl]
    | some last =>
      simp only [effectiveRange, hl]
      constructor
      · intro hc; cases hc
      · intro hc
        subst hc
        simp at hl

/-- C5. A schedule submission containing at least one entry that fails
validation (bad time string, hour above 23, minutes above 59, non-array,
wrong-length or non-numeric pair, or min at least max) is rejected with a
validation error, and both the live schedule and the persisted schedule
file are exactly the prior ones. -/
theorem schedule_submission_atomic :
    ∀ (body : List (String × JsonVal)) (st : ScheduleState) (p : String × JsonVal),
      p ∈ body → tempTimeFails p = true →
      (postSchedule body st).2 = st ∧
        ((postSchedule body st).1).isValidationError = true := by
  intro body st p hp he
  obtain ⟨e, herr⟩ := tempTimesOf_error_of_mem hp he
  have hobj : objToSortedTempTimeArray body = .error e := by
    unfold objToSortedTempTimeArray
    rw [herr]
  constructor
  · unfold postSchedule
    rw [hobj]
  · unfold postSchedule
    rw [hobj]
    rfl

/-- Closed witness for C5: a submission whose single entry has hour 24 is
rejected and leaves the schedule state untouched. -/
theorem schedule_submission_atomic_witness :
    (postSchedule [("24:00", JsonVal.arr [.num 19, .num 21])] ⟨[], []⟩).2 =
      (⟨[], []⟩ : ScheduleState) ∧
    ((postSchedule [("24:00", JsonVal.arr [.num 19, .num 21])] ⟨[], []⟩).1).isValidationError =
      true :=
  schedule_submission_atomic [("24:00", JsonVal.arr [.num 19, .num 21])] ⟨[], []⟩
    ("24:00", JsonVal.arr [.num 19, .num 21]) (List.mem_singleton.mpr rfl) (by decide)

/-- C6 counterexample. Two distinct key strings denoting the same
time-of-day (`8:00` and `08:00`) are both accepted: the submission is not
rejected, and the stored schedule holds two entries both at hour 8,
minute 0. -/
theorem schedule_duplicate_accepted :
    objToSortedTempTimeArray
        [("8:00", .arr [.num 19, .num 21]), ("08:00", .arr [.num 15, .num 18])] =
      .ok [⟨8, 0, 19, 21⟩, ⟨8, 0, 15, 18⟩] ∧
    ([(⟨8, 0, 19, 21⟩ : TempTime), ⟨8, 0, 15, 18⟩].map fun t => (t.hour, t.minutes)) =
      [(8, 0), (8, 0)] := by
  exact ⟨rfl, rfl⟩

/-- C6 amended. Every schedule a successful submission stores is weakly
sorted ascending by `(hour, minutes)` under numeric comparison; duplicate
time-of-day values are not rejected and may both be retained. -/
theorem schedule_sorted :
    ∀ (body : List (String × JsonVal)) (arr : List TempTime),
      objToSortedTempTimeArray body = .ok arr →
      List.Sorted (fun t1 t2 : TempTime =>
        t1.hour < t2.hour ∨ (t1.hour = t2.hour ∧ t1.minutes ≤ t2.minutes)) arr := by
  intro body arr hok
  unfold objToSortedTempTimeArray at hok
  cases ht : tempTimesOf body with
  | error e => rw [ht] at hok; cases hok
  | ok ts =>
    rw [ht] at hok
    have harr : ts.insertionSort ttLE = arr := by injection hok
    subst harr
    exact (List.sorted_insertionSort ttLE ts).imp fun hab => (ttLE_iff _ _).mp hab

/-- Closed witness for C6's amended statement on a one-entry submission. -/
theorem schedule_sorted_witness :
    List.Sorted (fun t1 t2 : TempTime =>
        t1.hour < t2.hour ∨ (t1.hour = t2.hour ∧ t1.minutes ≤ t2.minutes))
      [⟨8, 0, 19, 21⟩] :=
  schedule_sorted [("8:00", .arr [.num 19, .num 21])] [⟨8, 0, 19, 21⟩] rfl

/-- C7 evidence. The zero-reading guard compares the captured digit string
with the literal string `0`: the payload `t=0` is rejected as a zero
reading, but `t=00` — whose extracted milli-degree value is also exactly
zero — is returned as a temperature of 0 degrees, contradicting the
source's own comment that a temperature of 0 degrees is to be treated as an
error. -/
theorem parse_zeroReading_evidence :
    parseTempSensorData "crc=5a YES t=0" = .err .zeroReading ∧
    parseTempSensorData "crc=5a YES t=00" = .temp 0 ∧
    digitsToNat ['0', '0'] = 0 := by
  refine ⟨rfl, ?_, by decide⟩
  have h1 : crcTest ("crc=5a YES t=00".data) = true := by decide
  have h2 : findTempMatch ("crc=5a YES t=00".data) = some ['0', '0'] := by decide
  have h3 : digitsToNat ['0', '0'] = 0 := by decide
  simp [parseTempSensorData, h1, h2, h3]

/-- C8. Trimming keeps exactly the entries with numeric key at least
`now - maxAge` (keys are decimal strings coerced back to their numbers by
the comparison); an entry logged at time `T` with the configured 7-day
maximum age survives a trim at `T` plus 6 days 23 hours and is gone after a
trim at `T` plus 7 days 1 hour. -/
theorem trimLog_spec :
    (∀ (now maxAge : ℤ) (log : List (ℤ × SensorResult)) (t : ℤ) (v : SensorResult),
      (t, v) ∈ trimLog now maxAge log ↔ ((t, v) ∈ log ∧ ¬(t < now - maxAge))) ∧
    (∀ (reading : SensorResult) (T : ℤ) (log : List (ℤ × SensorResult)),
      (T, reading) ∈ logTemperatureTick reading T log ∧
      (T, reading) ∈
        trimLog (T + 601200000) maxTempLogAgeMs (logTemperatureTick reading T log) ∧
      (T, reading) ∉
        trimLog (T + 608400000) maxTempLogAgeMs (logTemperatureTick reading T log)) := by
  have hage : maxTempLogAgeMs = 604800000 := by decide
  have hmem : ∀ (now maxAge : ℤ) (log : List (ℤ × SensorResult)) (t : ℤ)
      (v : SensorResult),
      (t, v) ∈ trimLog now maxAge log ↔ ((t, v) ∈ log ∧ ¬(t < now - maxAge)) := by
    intro now maxAge log t v
    simp [trimLog, List.mem_filter]
  refine ⟨hmem, fun reading T log => ?_⟩
  have h1 : (T, reading) ∈ logTemperatureTick reading T log := by
    unfold logTemperatureTick
    rw [hmem]
    exact ⟨insertLogEntry_mem log T reading, by rw [hage]; omega⟩
  refine ⟨h1, ?_, ?_⟩
  · rw [hmem]
    exact ⟨h1, by rw [hage]; omega⟩
  · rw [hmem]
    intro hc
    exact hc.2 (by rw [hage]; omega)

/-- C9 counterexample. `toString` is none of the three actions, yet the
request is not rejected: `furnaceActions` is an object literal, so the
inherited `Object.prototype.toString` makes the `undefined` test pass; the
`switch` then matches nothing and the handler answers with the unchanged
furnace state instead of the invalid-action error. -/
theorem postState_toString_counterexample :
    ("toString" ≠ "heat" ∧ "toString" ≠ "cool" ∧ "toString" ≠ "off") ∧
    postState (some "toString") initialFurnaceState =
      (.furnace initialFurnaceState, initialFurnaceState, []) := by
  refine ⟨by decide, rfl⟩

/-- C9 amended. A missing action, or one that is neither an own key of the
actions object nor an `Object.prototype` property name, is rejected with the
invalid-action response and leaves the state alone; the three real actions
are applied and the resulting state is returned; an inherited prototype
property name passes the guard, performs no transition and no pin write,
and the handler returns the current state unchanged. -/
theorem postState_spec :
    (∀ st : FurnaceState, postState none st = (.invalidAction, st, [])) ∧
    (∀ (s : String) (st : FurnaceState), furnaceActionsDefined s = false →
      postState (some s) st = (.invalidAction, st, [])) ∧
    (∀ st : FurnaceState, postState (some "heat") st =
      (.furnace (performFurnaceAction .heat).1, performFurnaceAction .heat)) ∧
    (∀ st : FurnaceState, postState (some "cool") st =
      (.furnace (performFurnaceAction .cool).1, performFurnaceAction .cool)) ∧
    (∀ st : FurnaceState, postState (some "off") st =
      (.furnace (performFurnaceAction .off).1, performFurnaceAction .off)) ∧
    (∀ (s : String) (st : FurnaceState), furnaceActionsDefined s = true →
      isFurnaceActionKey s = false →
      postState (some s) st = (.furnace st, st, [])) := by
  refine ⟨fun st => rfl, fun s st hs => ?_, fun st => rfl, fun st => rfl,
    fun st => rfl, fun s st hdef hkey => ?_⟩
  · simp [postState, hs]
  · have hks : ¬(s = "heat") ∧ ¬(s = "cool") ∧ ¬(s = "off") := by
      unfold isFurnaceActionKey at hkey
      simp only [Bool.or_eq_false_iff, beq_eq_false_iff_ne, ne_eq] at hkey
      exact ⟨hkey.1.1, hkey.1.2, hkey.2⟩
    simp [postState, performFurnaceActionStr, hdef, hks.1, hks.2.1, hks.2.2]

/-- Closed witness for C9's amended statement: an unknown action string is
rejected, and the inherited prototype name `valueOf` falls through the
switch leaving the state unchanged. -/
theorem postState_spec_witness :
    (furnaceActionsDefined "bogus" = false ∧
      postState (some "bogus") initialFurnaceState =
        (.invalidAction, initialFurnaceState, [])) ∧
    (furnaceActionsDefined "valueOf" = true ∧ isFurnaceActionKey "valueOf" = false ∧
      postState (some "valueOf") initialFurnaceState =
        (.furnace initialFurnaceState, initialFurnaceState, [])) :=
  ⟨⟨by decide, postState_spec.2.1 "bogus" initialFurnaceState (by decide)⟩,
   ⟨by decide, by decide,
     postState_spec.2.2.2.2.2 "valueOf" initialFurnaceState (by decide) (by decide)⟩⟩

/-- C10. Whenever the sensor parse succeeds, the reported temperature is
nonnegative: the extraction pattern captures an unsigned digit run, so the
value is a natural number of milli-degrees divided by 1000. -/
theorem parse_success_nonneg :
    ∀ (data : String) (q : ℚ), parseTempSensorData data = .temp q → 0 ≤ q := by
  intro data q h
  unfold parseTempSensorData at h
  by_cases hcrc : crcTest data.data = false
  · rw [if_pos hcrc] at h
    exact SensorResult.noConfusion h
  · rw [if_neg hcrc] at h
    cases hf : findTempMatch data.data with
    | none => rw [hf] at h; exact SensorResult.noConfusion h
    | some ds =>
      rw [hf] at h
      dsimp only at h
      by_cases hz : ds = ['0']
      · rw [if_pos hz] at h
        exact SensorResult.noConfusion h
      · rw [if_neg hz] at h
        have hq : ((digitsToNat ds : ℚ)) / 1000 = q := by injection h
        rw [← hq]
        positivity

/-- Closed witness for C10 at a concrete successful payload. -/
theorem parse_success_nonneg_witness :
    0 ≤ ((21500 : ℚ) / 1000) :=
  parse_success_nonneg "crc=5a YES t=21500" ((21500 : ℚ) / 1000) (by
    have h1 : crcTest ("crc=5a YES t=21500".data) = true := by decide
    have h2 : findTempMatch ("crc=5a YES t=21500".data) =
        some ['2', '1', '5', '0', '0'] := by decide
    have h3 : digitsToNat ['2', '1', '5', '0', '0'] = 21500 := by decide
    simp [parseTempSensorData, h1, h2, h3])

end Thermostack
